import Mathlib

/-!
Verification of the dragonfly window-abstraction layer
(`dragonfly/windows/base_window.py` and `dragonfly/windows/win32_window.py`).

The Python classes are shallowly embedded: the process-wide class-level
registries (`BaseWindow._windows_by_id`, `BaseWindow._windows_by_name`)
together with the heap of window objects form an explicit state type `Sys`;
each Python method becomes a Lean function on that state.  Dictionaries are
modelled as association lists where insertion conses to the front and lookup
returns the first match, which matches overwrite-on-insert semantics.
Native Win32 calls are modelled as events in explicit call traces.
-/

namespace Dragonfly

/-- A Python value, as far as the `isinstance(id, integer_types)` check in
`BaseWindow._set_id` is concerned: an integer, or one of the non-integer
shapes a caller could pass (string, None, float). -/
inductive PyVal where
  | vint : Int → PyVal
  | vstr : String → PyVal
  | vnone : PyVal
  | vfloat : PyVal
deriving DecidableEq

/-- A Python exception, restricted to the kinds this code can raise. -/
inductive PyError where
  | typeError : String → PyError
  | keyError : String → PyError
  | valueError : String → PyError
deriving DecidableEq

/-- The per-object state of a `BaseWindow`: `self._id` (an `Option` because
`__init__` first sets it to `None`) and `self._names` (a Python `set` of
strings; modelled as a duplicate-free list in insertion order, with
`_get_name` returning the first iterated element, i.e. the head). -/
structure WinObj where
  _id : Option Int
  names : List String
deriving DecidableEq

/-- The process-wide state: the heap of constructed window objects (a
reference is an index into `objs`) and the two class-level registries
`_windows_by_id` and `_windows_by_name`. -/
structure Sys where
  objs : List WinObj
  windows_by_id : List (Int × Nat)
  windows_by_name : List (String × Nat)
deriving DecidableEq

/-- The empty process state: no objects constructed, both registries empty. -/
def Sys.empty : Sys := { objs := [], windows_by_id := [], windows_by_name := [] }

/-- Update the object at index `i` in the heap (no-op when out of range). -/
def updateAt (l : List WinObj) (i : Nat) (f : WinObj → WinObj) : List WinObj :=
  match l, i with
  | [], _ => []
  | x :: t, 0 => f x :: t
  | x :: t, Nat.succ i => x :: updateAt t i f

/-- Association-list lookup: first match wins, which gives Python-dict
semantics when insertion conses to the front. -/
def alookup {α β : Type} [DecidableEq α] (k : α) : List (α × β) → Option β
  | [] => none
  | p :: t => if p.1 = k then some p.2 else alookup k t

/-- The message of the `TypeError` raised by `BaseWindow._set_id` (the
`{0!r}` repr of the offending value is elided). -/
def typeErrorMsg : String := "Window id/handle must be integer or long"

/-- `BaseWindow._set_id(self, id)`: if `id` is not an integer raise
`TypeError` (before any mutation, so the state is returned unchanged);
otherwise store it in `self._id` and insert `self` into the class-level
`_windows_by_id` registry.  Both the `id` property setter and the `handle`
property setter dispatch to this one method. -/
def set_id (s : Sys) (ref : Nat) (v : PyVal) : Option PyError × Sys :=
  match v with
  | .vint n =>
      (none,
        { s with
            objs := updateAt s.objs ref (fun o => { o with _id := some n }),
            windows_by_id := (n, ref) :: s.windows_by_id })
  | _ => (some (.typeError typeErrorMsg), s)

/-- `BaseWindow.__init__(self, id)`: allocate a fresh object with
`self._id = None` and no names, then run `self.id = id` (which dispatches to
`_set_id`).  Returns the raised error (if any), the new object reference and
the new state. -/
def newWindow (s : Sys) (v : PyVal) : Option PyError × Nat × Sys :=
  let ref := s.objs.length
  let s1 : Sys := { s with objs := s.objs ++ [{ _id := none, names := [] }] }
  let r := set_id s1 ref v
  (r.1, ref, r.2)

/-- The `BaseWindow.id` property getter: return `self._id`. -/
def window_id (s : Sys) (ref : Nat) : Option Int :=
  match s.objs.get? ref with
  | some o => o._id
  | none => none

/-- The `BaseWindow.handle` property getter: it is
`property(fget=lambda self: self._id, ...)`, identical to `id`. -/
def window_handle (s : Sys) (ref : Nat) : Option Int := window_id s ref

/-- The names assigned so far to the window object `ref`. -/
def window_names (s : Sys) (ref : Nat) : List String :=
  match s.objs.get? ref with
  | some o => o.names
  | none => []

/-- `BaseWindow._set_name(self, name)`: add `name` to the `self._names` set
and insert `self` into the class-level `_windows_by_name` registry. -/
def set_name (s : Sys) (ref : Nat) (n : String) : Sys :=
  { s with
      objs := updateAt s.objs ref (fun o =>
        { o with names := if n ∈ o.names then o.names else o.names ++ [n] }),
      windows_by_name := (n, ref) :: s.windows_by_name }

/-- `BaseWindow._get_name(self)`: `None` when no name has been set, otherwise
the first element the set iteration yields (here: the head of the list). -/
def get_name (s : Sys) (ref : Nat) : Option String :=
  match s.objs.get? ref with
  | some o => o.names.head?
  | none => none

theorem updateAt_append_singleton (l : List WinObj) (x : WinObj) (f : WinObj → WinObj) :
    updateAt (l ++ [x]) l.length f = l ++ [f x] := by
  induction l with
  | nil => rfl
  | cons y t ih => simp [updateAt, ih]

theorem get?_append_singleton (l : List WinObj) (x : WinObj) :
    (l ++ [x]).get? l.length = some x := by
  induction l with
  | nil => rfl
  | cons y t ih => exact ih

theorem updateAt_getElem? (l : List WinObj) (i : Nat) (f : WinObj → WinObj) :
    (updateAt l i f)[i]? = l[i]?.map f := by
  induction l generalizing i with
  | nil => simp [updateAt]
  | cons y t ih =>
    cases i with
    | zero => simp [updateAt]
    | succ j => simpa [updateAt] using ih j

/-- Claim C1, as stated, is false: the code only checks
`isinstance(id, integer_types)`, so a negative integer is accepted as a
handle.  Constructing a window with id `-1` succeeds (no error) and stores
`-1`, contradicting "a handle must be a non-negative integer". -/
theorem set_id_accepts_negative :
    (newWindow Sys.empty (PyVal.vint (-1))).1 = none ∧
    window_id (newWindow Sys.empty (PyVal.vint (-1))).2.2
      (newWindow Sys.empty (PyVal.vint (-1))).2.1 = some (-1) ∧
    ((-1 : Int) < 0) := by
  decide

/-- Claim C1 (amended): for every value assigned as a window id/handle
(construction, the `id` setter and the `handle` setter all dispatch to
`_set_id`): an integer of any sign is stored as given and registered, while
a non-integer value raises `TypeError` immediately and leaves the entire
state — in particular the stored id — unchanged. -/
theorem set_id_type_checked (s : Sys) (ref : Nat) (v : PyVal)
    (href : ref < s.objs.length) :
    (∀ n : Int, v = PyVal.vint n →
        (set_id s ref v).1 = none ∧
        window_id (set_id s ref v).2 ref = some n ∧
        alookup n (set_id s ref v).2.windows_by_id = some ref) ∧
    ((∀ n : Int, v ≠ PyVal.vint n) →
        (set_id s ref v).1 = some (PyError.typeError typeErrorMsg) ∧
        (set_id s ref v).2 = s) := by
  constructor
  · intro n hv
    subst hv
    refine ⟨rfl, ?_, by simp [set_id, alookup]⟩
    have ho : s.objs[ref]? = some (s.objs[ref]) := List.getElem?_eq_getElem href
    simp [set_id, window_id, updateAt_getElem?, ho]
  · intro hv
    cases v with
    | vint n => exact absurd rfl (hv n)
    | vstr t => exact ⟨rfl, rfl⟩
    | vnone => exact ⟨rfl, rfl⟩
    | vfloat => exact ⟨rfl, rfl⟩

/-- Witness for the amended claim C1 at a concrete input: a state with one
object, assigned the string "x". -/
theorem set_id_type_checked_witness :
    (0 < (Sys.mk [{ _id := some 1, names := [] }] [(1, 0)] []).objs.length) ∧
    ((set_id (Sys.mk [{ _id := some 1, names := [] }] [(1, 0)] []) 0 (PyVal.vstr "x")).1
        = some (PyError.typeError typeErrorMsg) ∧
      (set_id (Sys.mk [{ _id := some 1, names := [] }] [(1, 0)] []) 0 (PyVal.vstr "x")).2
        = Sys.mk [{ _id := some 1, names := [] }] [(1, 0)] []) := by
  refine ⟨by decide, ?_⟩
  exact (set_id_type_checked (Sys.mk [{ _id := some 1, names := [] }] [(1, 0)] [])
    0 (PyVal.vstr "x") (by decide)).2 (by intro n h; exact PyVal.noConfusion h)

/-- Claim C2: constructing a window with an integer id `h` succeeds, and
reading back both `id` and `handle` returns `h`; constructing with any
non-integer value raises `TypeError`. -/
theorem construct_roundtrip (s : Sys) (v : PyVal) :
    (∀ n : Int, v = PyVal.vint n →
        (newWindow s v).1 = none ∧
        window_id (newWindow s v).2.2 (newWindow s v).2.1 = some n ∧
        window_handle (newWindow s v).2.2 (newWindow s v).2.1 = some n) ∧
    ((∀ n : Int, v ≠ PyVal.vint n) →
        (newWindow s v).1 = some (PyError.typeError typeErrorMsg)) := by
  constructor
  · intro n hv
    subst hv
    have hupd : updateAt (s.objs ++ [{ _id := none, names := [] }]) s.objs.length
        (fun o => { o with _id := some n })
        = s.objs ++ [{ _id := some n, names := [] }] :=
      updateAt_append_singleton s.objs _ _
    refine ⟨rfl, ?_, ?_⟩ <;>
      simp [newWindow, set_id, window_id, window_handle, hupd, get?_append_singleton]
  · intro hv
    cases v with
    | vint n => exact absurd rfl (hv n)
    | vstr t => rfl
    | vnone => rfl
    | vfloat => rfl

/-- Witness for claim C2 at a concrete input: constructing with id 7 on the
empty state and reading it back. -/
theorem construct_roundtrip_witness :
    (newWindow Sys.empty (PyVal.vint 7)).1 = none ∧
    window_id (newWindow Sys.empty (PyVal.vint 7)).2.2
      (newWindow Sys.empty (PyVal.vint 7)).2.1 = some 7 ∧
    window_handle (newWindow Sys.empty (PyVal.vint 7)).2.2
      (newWindow Sys.empty (PyVal.vint 7)).2.1 = some 7 :=
  (construct_roundtrip Sys.empty (PyVal.vint 7)).1 7 rfl

/-- Modelled from the spec: `rectangle.py` is not under `src/`; the spec
describes a Rectangle as "a position/size value (left, top, width, height)".
Only its role as an opaque position/size value is needed here. -/
structure Rectangle where
  left : Int
  top : Int
  width : Int
  height : Int
deriving DecidableEq

/-- An observable action performed by `BaseWindow.move`: either a direct
`self.set_position(rectangle)` call, or a delegated
`window_mover.move_window(self, self.get_position(), rectangle)` call
(fields: mover object, window reference, current position, target). -/
inductive MoveAction where
  | setPosition : Rectangle → MoveAction
  | moverMoveWindow : Nat → Nat → Rectangle → Rectangle → MoveAction
deriving DecidableEq

/-- Python truthiness of the optional `animate` string argument, as tested
by `if not animate:` — `None` and the empty string are falsy. -/
def pyTruthyStr : Option String → Bool
  | none => false
  | some s => decide (s ≠ "")

/-- The action trace of a bare `set_position(rectangle)` call. -/
def set_position_actions (rectangle : Rectangle) : List MoveAction :=
  [MoveAction.setPosition rectangle]

/-- `BaseWindow.move(self, rectangle, animate=None)`: if `animate` is falsy,
call `set_position(rectangle)`; otherwise look `animate` up in the
`window_movers` registry (an externally supplied dict, modelled as an
association list of names to mover objects); on `KeyError` fall back to
`set_position(rectangle)`, else call
`window_mover.move_window(self, self.get_position(), rectangle)`.
`ref` is `self` and `cur` is the value `self.get_position()` would return
in the delegating branch. -/
def move (window_movers : List (String × Nat)) (ref : Nat) (cur : Rectangle)
    (rectangle : Rectangle) (animate : Option String) : List MoveAction :=
  if pyTruthyStr animate = false then
    [MoveAction.setPosition rectangle]
  else
    match animate with
    | some a =>
      match alookup a window_movers with
      | none => [MoveAction.setPosition rectangle]
      | some window_mover => [MoveAction.moverMoveWindow window_mover ref cur rectangle]
    | none => [MoveAction.setPosition rectangle]

/-- Claim C3: `move(r, animate=None)` is equivalent to `set_position(r)`,
and so is `move(r, animate=s)` for any name `s` absent from the
window-mover registry — the unknown name is a silent fallback, no error. -/
theorem move_fallback_is_set_position (window_movers : List (String × Nat))
    (ref : Nat) (cur rectangle : Rectangle) :
    move window_movers ref cur rectangle none = set_position_actions rectangle ∧
    (∀ s : String, alookup s window_movers = none →
      move window_movers ref cur rectangle (some s) = set_position_actions rectangle) := by
  constructor
  · simp [move, pyTruthyStr, set_position_actions]
  · intro s hs
    by_cases hse : s = ""
    · subst hse
      simp [move, pyTruthyStr, set_position_actions]
    · simp [move, pyTruthyStr, hse, hs, set_position_actions]

/-- Witness for claim C3 at a concrete input: the name "spin" is not in a
registry holding only "slide", and the move degrades to `set_position`. -/
theorem move_fallback_is_set_position_witness :
    alookup "spin" [("slide", 3)] = (none : Option Nat) ∧
    move [("slide", 3)] 0 (Rectangle.mk 0 0 2 2) (Rectangle.mk 1 1 2 2) (some "spin") =
      set_position_actions (Rectangle.mk 1 1 2 2) :=
  ⟨by decide,
    (move_fallback_is_set_position [("slide", 3)] 0 (Rectangle.mk 0 0 2 2)
      (Rectangle.mk 1 1 2 2)).2 "spin" (by decide)⟩

/-- Claim C4, as stated, is false: the empty string is a possible registry
key, yet `move` tests `if not animate:` first, so `animate=""` performs a
plain `set_position` and never consults the registry — even when `""` is
registered. -/
theorem move_empty_name_not_delegated :
    alookup "" [("", 0)] = some 0 ∧
    move [("", 0)] 0 (Rectangle.mk 0 0 2 2) (Rectangle.mk 1 1 2 2) (some "") =
      [MoveAction.setPosition (Rectangle.mk 1 1 2 2)] ∧
    move [("", 0)] 0 (Rectangle.mk 0 0 2 2) (Rectangle.mk 1 1 2 2) (some "") ≠
      [MoveAction.moverMoveWindow 0 0 (Rectangle.mk 0 0 2 2) (Rectangle.mk 1 1 2 2)] := by
  decide

/-- Claim C4 (amended): for every non-empty name `a` present in the
window-mover registry, `move(r, animate=a)` calls the registered mover as
`move_window(self, self.get_position(), r)` and performs no direct
`set_position` call. -/
theorem move_known_name_delegates (window_movers : List (String × Nat))
    (ref : Nat) (cur rectangle : Rectangle) (a : String) (window_mover : Nat)
    (ha : a ≠ "") (hm : alookup a window_movers = some window_mover) :
    move window_movers ref cur rectangle (some a) =
      [MoveAction.moverMoveWindow window_mover ref cur rectangle] ∧
    ∀ r : Rectangle,
      MoveAction.setPosition r ∉ move window_movers ref cur rectangle (some a) := by
  have hmv : move window_movers ref cur rectangle (some a) =
      [MoveAction.moverMoveWindow window_mover ref cur rectangle] := by
    simp [move, pyTruthyStr, ha, hm]
  refine ⟨hmv, ?_⟩
  intro r
  simp [hmv]

/-- Witness for the amended claim C4 at a concrete input: the registered
name "slide" delegates to mover 3. -/
theorem move_known_name_delegates_witness :
    move [("slide", 3)] 0 (Rectangle.mk 0 0 2 2) (Rectangle.mk 1 1 2 2) (some "slide") =
      [MoveAction.moverMoveWindow 3 0 (Rectangle.mk 0 0 2 2) (Rectangle.mk 1 1 2 2)] ∧
    MoveAction.setPosition (Rectangle.mk 1 1 2 2) ∉
      move [("slide", 3)] 0 (Rectangle.mk 0 0 2 2) (Rectangle.mk 1 1 2 2) (some "slide") := by
  have h := move_known_name_delegates [("slide", 3)] 0 (Rectangle.mk 0 0 2 2)
    (Rectangle.mk 1 1 2 2) "slide" 3 (by decide) (by decide)
  exact ⟨h.1, h.2 (Rectangle.mk 1 1 2 2)⟩

/-- A monitor descriptor from the externally supplied ordered monitor list;
only its rectangle is consulted by the code under verification. -/
structure Monitor where
  rectangle : Rectangle
deriving DecidableEq

/-- `Win32Window.get_containing_monitor(self)`: iterate over the monitor
list in order and return the first monitor whose rectangle contains the
window position center; if none does, fall through to `monitors[0]`
(`none` here corresponds to the `IndexError` an empty list would raise).
`containsCenter r` stands for `r.contains(self.get_position().center)`;
`Rectangle.contains` and `center` live in `rectangle.py`, which is not
under `src/`, so the containment test is a parameter. -/
def get_containing_monitor (monitors : List Monitor)
    (containsCenter : Rectangle → Bool) : Option Monitor :=
  match monitors.find? (fun m => containsCenter m.rectangle) with
  | some m => some m
  | none => monitors.head?

/-- Claim C5: `get_containing_monitor` returns the first monitor in the
list whose rectangle contains the window center (any decomposition of the
list into a non-containing prefix, a containing monitor and a tail yields
that monitor), and when no monitor contains the center it returns the head
of the (nonempty) list. -/
theorem containing_monitor_first (ms : List Monitor) (c : Rectangle → Bool)
    (hne : ms ≠ []) :
    (∀ pre m post, ms = pre ++ m :: post →
        (∀ k ∈ pre, c k.rectangle = false) → c m.rectangle = true →
        get_containing_monitor ms c = some m) ∧
    ((∀ k ∈ ms, c k.rectangle = false) →
        get_containing_monitor ms c = some (ms.head hne)) := by
  constructor
  · intro pre m post heq hpre hm
    subst heq
    have hfind : ∀ pre2 : List Monitor, (∀ k ∈ pre2, c k.rectangle = false) →
        List.find? (fun k => c k.rectangle) (pre2 ++ m :: post) = some m := by
      intro pre2
      induction pre2 with
      | nil => intro _; simp [hm]
      | cons p t ih =>
        intro hpre2
        have hp : c p.rectangle = false := hpre2 p (by simp)
        have ht : ∀ k ∈ t, c k.rectangle = false := fun k hk => hpre2 k (by simp [hk])
        simp only [List.cons_append]
        rw [List.find?_cons_of_neg _ (by simp [hp])]
        exact ih ht
    simp [get_containing_monitor, hfind pre hpre]
  · intro hall
    have hfind : List.find? (fun k => c k.rectangle) ms = none :=
      List.find?_eq_none.mpr (fun x hx => by simp [hall x hx])
    simp [get_containing_monitor, hfind, List.head?_eq_head hne]

/-- Witness for claim C5 at a concrete input: two monitors, the second one
contains the center. -/
theorem containing_monitor_first_witness :
    get_containing_monitor
      [Monitor.mk (Rectangle.mk 0 0 5 5), Monitor.mk (Rectangle.mk 5 0 5 5)]
      (fun r => decide (r.left = 5)) = some (Monitor.mk (Rectangle.mk 5 0 5 5)) :=
  (containing_monitor_first
      [Monitor.mk (Rectangle.mk 0 0 5 5), Monitor.mk (Rectangle.mk 5 0 5 5)]
      (fun r => decide (r.left = 5)) (by decide)).1
    [Monitor.mk (Rectangle.mk 0 0 5 5)] (Monitor.mk (Rectangle.mk 5 0 5 5)) []
    rfl (by decide) (by decide)

/-- The `win32con.SW_MINIMIZE` show-window command code. -/
def SW_MINIMIZE : Nat := 6
/-- The `win32con.SW_MAXIMIZE` show-window command code. -/
def SW_MAXIMIZE : Nat := 3
/-- The `win32con.SW_RESTORE` show-window command code. -/
def SW_RESTORE : Nat := 9

/-- A native Win32 call observable in `Win32Window.set_foreground`:
`win32gui.ShowWindow(handle, state)` or
`win32gui.SetForegroundWindow(handle)`. -/
inductive Win32Call where
  | showWindow : Int → Nat → Win32Call
  | setForegroundWindow : Int → Win32Call
deriving DecidableEq

/-- `Win32Window.restore`, built by `_win32gui_show_window(win32con.SW_RESTORE)`:
one `ShowWindow(handle, SW_RESTORE)` call. -/
def restore (handle : Int) : List Win32Call :=
  [Win32Call.showWindow handle SW_RESTORE]

/-- `Win32Window.minimize`: one `ShowWindow(handle, SW_MINIMIZE)` call. -/
def minimize (handle : Int) : List Win32Call :=
  [Win32Call.showWindow handle SW_MINIMIZE]

/-- `Win32Window.maximize`: one `ShowWindow(handle, SW_MAXIMIZE)` call. -/
def maximize (handle : Int) : List Win32Call :=
  [Win32Call.showWindow handle SW_MAXIMIZE]

/-- `Win32Window.set_foreground(self)`: if `self.is_minimized` (the
`IsIconic` test, passed in as a boolean), first `self.restore()`, then in
all cases the native `SetForegroundWindow` call via `self._set_foreground()`. -/
def set_foreground (handle : Int) (is_minimized : Bool) : List Win32Call :=
  (if is_minimized then restore handle else []) ++
    [Win32Call.setForegroundWindow handle]

/-- Claim C6: on a minimized window `set_foreground` issues exactly the
restore call followed by the foreground-focus call (restore strictly
first); on a non-minimized window it issues only the foreground-focus
call. -/
theorem set_foreground_restores_first :
    ∀ handle : Int,
      set_foreground handle true =
        [Win32Call.showWindow handle SW_RESTORE,
         Win32Call.setForegroundWindow handle] ∧
      set_foreground handle false = [Win32Call.setForegroundWindow handle] := by
  intro handle
  exact ⟨rfl, rfl⟩

/-- A native call observable in `Win32Window._get_window_module` (call
arguments elided; only the call sequence matters to the claims). -/
inductive ProcCall where
  | getWindowThreadProcessId
  | openProcess
  | queryFullProcessImageName
  | getModuleFileNameEx
  | closeHandle
deriving DecidableEq

/-- `Win32Window._get_window_module(self)`: get the owning process id, open
the process, then inside `try/except Exception/finally`: attempt the modern
`QueryFullProcessImageNameW` path (`modern` is the combined outcome of that
native call plus its buffer post-processing), on any exception fall back to
the legacy `GetModuleFileNameExW` path (`legacy`, likewise), and in the
`finally` block always call `CloseHandle`. -/
def get_window_module (modern legacy : Except PyError String) :
    Except PyError String × List ProcCall :=
  match modern with
  | .ok buffer =>
      (.ok buffer,
        [ProcCall.getWindowThreadProcessId, ProcCall.openProcess,
         ProcCall.queryFullProcessImageName, ProcCall.closeHandle])
  | .error _ =>
      match legacy with
      | .ok buffer =>
          (.ok buffer,
            [ProcCall.getWindowThreadProcessId, ProcCall.openProcess,
             ProcCall.queryFullProcessImageName, ProcCall.getModuleFileNameEx,
             ProcCall.closeHandle])
      | .error e =>
          (.error e,
            [ProcCall.getWindowThreadProcessId, ProcCall.openProcess,
             ProcCall.queryFullProcessImageName, ProcCall.getModuleFileNameEx,
             ProcCall.closeHandle])

/-- Whether an outcome is a raised exception. -/
def isError : Except PyError String → Bool
  | .error _ => true
  | .ok _ => false

/-- Claim C7: on every exit path of the executable-path lookup — modern
query success, legacy fallback success, or failure — the opened process
handle is released by `CloseHandle`. -/
theorem process_handle_always_closed (modern legacy : Except PyError String) :
    ProcCall.closeHandle ∈ (get_window_module modern legacy).2 := by
  cases modern <;> cases legacy <;> simp [get_window_module]

/-- Claim C8: the lookup errors exactly when both the modern and the legacy
path fail; the legacy API is invoked exactly when the modern path fails;
and the overall outcome is the modern outcome when it succeeds, otherwise
the legacy outcome (so only a legacy failure propagates). -/
theorem modern_failure_swallowed (modern legacy : Except PyError String) :
    isError (get_window_module modern legacy).1 = (isError modern && isError legacy) ∧
    (get_window_module modern legacy).2.contains ProcCall.getModuleFileNameEx
      = isError modern ∧
    (get_window_module modern legacy).1 =
      (match modern with
        | Except.ok buffer => Except.ok buffer
        | Except.error _ => legacy) := by
  cases modern <;> cases legacy <;> exact ⟨rfl, rfl, rfl⟩

/-- Claim C9: after `w.name = n`, the class-level `_windows_by_name`
registry maps `n` to `w`, and reading `w.name` back yields some name
previously assigned to `w` — either `n` itself or one of the names already
in `w._names`. -/
theorem name_registry_after_set (s : Sys) (ref : Nat) (n : String)
    (href : ref < s.objs.length) :
    alookup n (set_name s ref n).windows_by_name = some ref ∧
    ∃ m, get_name (set_name s ref n) ref = some m ∧
      (m = n ∨ m ∈ window_names s ref) := by
  have ho : s.objs[ref]? = some (s.objs[ref]) := List.getElem?_eq_getElem href
  constructor
  · simp [set_name, alookup]
  · have hg : get_name (set_name s ref n) ref =
        (if n ∈ (s.objs[ref]).names then (s.objs[ref]).names
         else (s.objs[ref]).names ++ [n]).head? := by
      simp [set_name, get_name, updateAt_getElem?, ho]
    have hw : window_names s ref = (s.objs[ref]).names := by
      simp [window_names, ho]
    cases hnames : (s.objs[ref]).names with
    | nil =>
      refine ⟨n, ?_, Or.inl rfl⟩
      rw [hg, hnames]
      simp
    | cons x t =>
      refine ⟨x, ?_, Or.inr ?_⟩
      · rw [hg, hnames]
        by_cases hmem : n ∈ x :: t <;> simp [hmem]
      · rw [hw, hnames]
        simp

/-- Witness for claim C9 at a concrete input: a window that already carries
the name "alpha" is given the name "beta". -/
theorem name_registry_after_set_witness :
    (0 < (Sys.mk [{ _id := some 1, names := ["alpha"] }] [(1, 0)] [("alpha", 0)]).objs.length) ∧
    (alookup "beta"
        (set_name (Sys.mk [{ _id := some 1, names := ["alpha"] }] [(1, 0)] [("alpha", 0)])
          0 "beta").windows_by_name = some 0 ∧
      ∃ m, get_name
          (set_name (Sys.mk [{ _id := some 1, names := ["alpha"] }] [(1, 0)] [("alpha", 0)])
            0 "beta") 0 = some m ∧
        (m = "beta" ∨
          m ∈ window_names
            (Sys.mk [{ _id := some 1, names := ["alpha"] }] [(1, 0)] [("alpha", 0)]) 0)) :=
  ⟨by decide,
    name_registry_after_set
      (Sys.mk [{ _id := some 1, names := ["alpha"] }] [(1, 0)] [("alpha", 0)])
      0 "beta" (by decide)⟩

/-- `Win32Window.__init__(self, handle)`: it just calls
`super().__init__(id=handle)` with the integer enumeration handle, which
never raises, so the error component is dropped. -/
def newWin32Window (s : Sys) (handle : Int) : Nat × Sys :=
  (newWindow s (PyVal.vint handle)).2

/-- `Win32Window.get_foreground(cls)`: take the native foreground handle;
if it is already a key of `_windows_by_id`, return the cached wrapper,
otherwise construct a new `Win32Window` for it. -/
def get_foreground (s : Sys) (foreground_handle : Int) : Nat × Sys :=
  match alookup foreground_handle s.windows_by_id with
  | some ref => (ref, s)
  | none => newWin32Window s foreground_handle

/-- `Win32Window.get_all_windows(cls)`: `EnumWindows` yields the top-level
handles in order (`handles` here); the callback appends
`Win32Window(handle)` to the result list for each one, so one fresh wrapper
is constructed per handle with no registry reuse. -/
def get_all_windows (s : Sys) (handles : List Int) : List Nat × Sys :=
  match handles with
  | [] => ([], s)
  | h :: rest =>
    let r1 := newWin32Window s h
    let r2 := get_all_windows r1.2 rest
    (r1.1 :: r2.1, r2.2)

/-- The registry entries contributed by enumerating `handles` starting from
heap size `base`, in lookup order: entries from later handles shadow
earlier ones for the same key. -/
def enumPairsRev (base : Nat) : List Int → List (Int × Nat)
  | [] => []
  | h :: t => enumPairsRev (base + 1) t ++ [(h, base)]

theorem newWin32Window_eq (s : Sys) (h : Int) :
    newWin32Window s h =
      (s.objs.length,
        { objs := s.objs ++ [{ _id := some h, names := [] }],
          windows_by_id := (h, s.objs.length) :: s.windows_by_id,
          windows_by_name := s.windows_by_name }) := by
  simp [newWin32Window, newWindow, set_id, updateAt_append_singleton]

theorem alookup_append (l1 l2 : List (Int × Nat)) (k : Int) :
    alookup k (l1 ++ l2) =
      match alookup k l1 with
      | some v => some v
      | none => alookup k l2 := by
  induction l1 with
  | nil => simp [alookup]
  | cons p t ih => by_cases hp : p.1 = k <;> simp [alookup, hp, ih]

theorem alookup_enumPairsRev_of_not_mem (hs : List Int) (h : Int) :
    ∀ base : Nat, h ∉ hs → alookup h (enumPairsRev base hs) = none := by
  induction hs with
  | nil => intro base _; rfl
  | cons h0 t ih =>
    intro base hnm
    have h0ne : h0 ≠ h := fun he => hnm (by simp [he])
    have hnt : h ∉ t := fun ht => hnm (by simp [ht])
    simp only [enumPairsRev]
    rw [alookup_append, ih (base + 1) hnt]
    simp [alookup, h0ne]

theorem alookup_enumPairsRev_last (hs : List Int) (h : Int) :
    ∀ (base i : Nat) (hi : i < hs.length), hs.get ⟨i, hi⟩ = h →
      (∀ j (hj : j < hs.length), i < j → hs.get ⟨j, hj⟩ ≠ h) →
      alookup h (enumPairsRev base hs) = some (base + i) := by
  induction hs with
  | nil => intro base i hi; exact absurd hi (by simp)
  | cons h0 t ih =>
    intro base i hi hget hlast
    cases i with
    | zero =>
      have h0h : h0 = h := hget
      have hnt : h ∉ t := by
        intro hmem
        rcases List.mem_iff_get.mp hmem with ⟨⟨j, hj⟩, hjh⟩
        exact hlast (j + 1) (by simpa using Nat.succ_lt_succ hj) (Nat.succ_pos j) hjh
      simp only [enumPairsRev]
      rw [alookup_append, alookup_enumPairsRev_of_not_mem t h (base + 1) hnt]
      simp [alookup, h0h]
    | succ i0 =>
      have hi0 : i0 < t.length := by simpa using Nat.lt_of_succ_lt_succ hi
      have hget0 : t.get ⟨i0, hi0⟩ = h := hget
      have hlast0 : ∀ j (hj : j < t.length), i0 < j → t.get ⟨j, hj⟩ ≠ h := by
        intro j hj hij
        exact hlast (j + 1) (by simpa using Nat.succ_lt_succ hj) (Nat.succ_lt_succ hij)
      simp only [enumPairsRev]
      rw [alookup_append, ih (base + 1) i0 hi0 hget0 hlast0]
      have harith : base + 1 + i0 = base + (i0 + 1) := by omega
      simp [harith]

theorem last_occurrence_exists (hs : List Int) (h : Int) (hmem : h ∈ hs) :
    ∃ i, ∃ hi : i < hs.length, hs.get ⟨i, hi⟩ = h ∧
      ∀ j (hj : j < hs.length), i < j → hs.get ⟨j, hj⟩ ≠ h := by
  induction hs with
  | nil => simp at hmem
  | cons h0 t ih =>
    by_cases hmt : h ∈ t
    · rcases ih hmt with ⟨i, hi, hget, hlast⟩
      refine ⟨i + 1, Nat.succ_lt_succ hi, hget, ?_⟩
      intro j hj hij
      cases j with
      | zero => exact absurd hij (by omega)
      | succ j0 => exact hlast j0 (Nat.lt_of_succ_lt_succ hj) (Nat.lt_of_succ_lt_succ hij)
    · have h0h : h0 = h := by
        rcases List.mem_cons.mp hmem with he | ht
        · exact he.symm
        · exact absurd ht hmt
      refine ⟨0, Nat.succ_pos _, h0h, ?_⟩
      intro j hj hij
      cases j with
      | zero => exact absurd hij (by omega)
      | succ j0 =>
        intro heq
        exact hmt (heq ▸ List.get_mem t j0 _)

theorem get_all_windows_spec (handles : List Int) : ∀ s : Sys,
    (get_all_windows s handles).2.objs.length = s.objs.length + handles.length ∧
    (get_all_windows s handles).2.windows_by_id =
      enumPairsRev s.objs.length handles ++ s.windows_by_id ∧
    (get_all_windows s handles).1 =
      (List.range handles.length).map (fun k => s.objs.length + k) := by
  induction handles with
  | nil => intro s; exact ⟨rfl, rfl, rfl⟩
  | cons h t ih =>
    intro s
    obtain ⟨ih1, ih2, ih3⟩ := ih (newWin32Window s h).2
    have hlen : (newWin32Window s h).2.objs.length = s.objs.length + 1 := by
      rw [newWin32Window_eq]
      simp
    have hbyid : (newWin32Window s h).2.windows_by_id =
        (h, s.objs.length) :: s.windows_by_id := by
      rw [newWin32Window_eq]
    have hfst : (newWin32Window s h).1 = s.objs.length := by
      rw [newWin32Window_eq]
    refine ⟨?_, ?_, ?_⟩
    · simp only [get_all_windows]
      rw [ih1, hlen]
      simp only [List.length_cons]
      omega
    · simp only [get_all_windows]
      rw [ih2, hbyid, hlen]
      simp [enumPairsRev, List.append_assoc]
    · simp only [get_all_windows]
      rw [ih3, hfst, hlen]
      have harith : ∀ k : Nat, s.objs.length + 1 + k = s.objs.length + (k + 1) := by
        intro k
        omega
      simp [List.length_cons, List.range_succ_eq_map, List.map_map,
        Function.comp, harith, Nat.succ_eq_add_one]

/-- Claim C10: enumerating all windows constructs one fresh wrapper per
handle (the returned references are exactly the next `handles.length` heap
slots), and each construction inserts itself into the shared
`_windows_by_id` registry, overwriting earlier entries — so after
`get_all_windows`, the registry maps each enumerated handle to the wrapper
built at its last occurrence, that wrapper is none of the previously
registered ones, and a subsequent `get_foreground` for that handle returns
this newest wrapper from the registry without constructing anything. -/
theorem enumeration_mutates_registry (s : Sys) (handles : List Int) (h : Int)
    (hmem : h ∈ handles)
    (hwf : ∀ p ∈ s.windows_by_id, p.2 < s.objs.length) :
    ∃ i, ∃ hi : i < handles.length,
      handles.get ⟨i, hi⟩ = h ∧
      (∀ j (hj : j < handles.length), i < j → handles.get ⟨j, hj⟩ ≠ h) ∧
      (get_all_windows s handles).1 =
        (List.range handles.length).map (fun k => s.objs.length + k) ∧
      alookup h (get_all_windows s handles).2.windows_by_id
        = some (s.objs.length + i) ∧
      (∀ p ∈ s.windows_by_id, p.2 ≠ s.objs.length + i) ∧
      get_foreground (get_all_windows s handles).2 h
        = (s.objs.length + i, (get_all_windows s handles).2) := by
  obtain ⟨i, hi, hget, hlast⟩ := last_occurrence_exists handles h hmem
  obtain ⟨hlen, hbyid, hrefs⟩ := get_all_windows_spec handles s
  have hlook : alookup h (get_all_windows s handles).2.windows_by_id
      = some (s.objs.length + i) := by
    rw [hbyid, alookup_append,
      alookup_enumPairsRev_last handles h s.objs.length i hi hget hlast]
  refine ⟨i, hi, hget, hlast, hrefs, hlook, ?_, ?_⟩
  · intro p hp
    have := hwf p hp
    omega
  · simp [get_foreground, hlook]

/-- Witness for claim C10 at a concrete input: enumerating handles
`[4, 7, 4]` from the empty state; the registry ends up mapping 4 to the
wrapper from the last occurrence (heap slot 2) and `get_foreground` returns
it. -/
theorem enumeration_mutates_registry_witness :
    (4 : Int) ∈ [(4 : Int), 7, 4] ∧
    ∃ i, ∃ hi : i < ([(4 : Int), 7, 4]).length,
      ([(4 : Int), 7, 4]).get ⟨i, hi⟩ = 4 ∧
      (∀ j (hj : j < ([(4 : Int), 7, 4]).length), i < j →
        ([(4 : Int), 7, 4]).get ⟨j, hj⟩ ≠ 4) ∧
      (get_all_windows Sys.empty [(4 : Int), 7, 4]).1 =
        (List.range ([(4 : Int), 7, 4]).length).map (fun k => Sys.empty.objs.length + k) ∧
      alookup (4 : Int) (get_all_windows Sys.empty [(4 : Int), 7, 4]).2.windows_by_id
        = some (Sys.empty.objs.length + i) ∧
      (∀ p ∈ Sys.empty.windows_by_id, p.2 ≠ Sys.empty.objs.length + i) ∧
      get_foreground (get_all_windows Sys.empty [(4 : Int), 7, 4]).2 4
        = (Sys.empty.objs.length + i, (get_all_windows Sys.empty [(4 : Int), 7, 4]).2) :=
  ⟨by decide,
    enumeration_mutates_registry Sys.empty [4, 7, 4] 4 (by decide) (by decide)⟩

end Dragonfly
